import Mathlib

/-!
Verification development for the `file-watcher.py` automation engine of the
ObsidianClaudeAutomation repository.

The Python source is shallowly embedded: file contents (`str`) become
`List Char`, the handler's mutable fields (`self.processing`,
`self.process_count`, plus the set of live child processes) become an explicit
`WatcherState`, and each call of `_handle_file_change` — which the watchdog
observer dispatches sequentially on its single event thread — becomes one
atomic transition.  The completion threads (`cleanup`) and the launch-failure
handlers only ever remove keys; they are modelled as separate transitions.
Filesystem answers (stat result, read outcome) and the environment's
executable lookup are inputs to each transition, since the code merely reacts
to whatever the OS reports.
-/

namespace FileWatcher

/-! ## Marker detection (`'claude!' in content`, `content.find('claude!')`) -/

/-- The marker substring `'claude!'` (line 222 of `file-watcher.py`). -/
def marker : List Char := ['c', 'l', 'a', 'u', 'd', 'e', '!']

/-- `leadsWith needle l` is true when `needle` occurs at the very start of
`l`: the building block of Python's substring search. -/
def leadsWith : List Char → List Char → Bool
  | [], _ => true
  | _ :: _, [] => false
  | a :: as, b :: bs => a = b && leadsWith as bs

/-- Python `haystack.find(needle)`: index of the first occurrence, `none`
when absent (Python returns `-1`). -/
def findSub (needle : List Char) : List Char → Option Nat
  | [] => if leadsWith needle [] then some 0 else none
  | c :: rest =>
      if leadsWith needle (c :: rest) then some 0
      else (findSub needle rest).map (· + 1)

/-- Python `needle in haystack`. -/
def containsSub (needle haystack : List Char) : Bool :=
  (findSub needle haystack).isSome

/-- Python `.replace('\n', '\\n')` from line 235: every newline becomes the
two characters backslash-`n`. -/
def flattenNewlines : List Char → List Char
  | [] => []
  | c :: rest =>
      if c = '\n' then '\\' :: 'n' :: flattenNewlines rest
      else c :: flattenNewlines rest

/-- Lines 232–235: `context_start = max(0, marker_pos - 50)`,
`context_end = min(len(content), marker_pos + 150)`,
`content[context_start:context_end].replace('\n', '\\n')`.
Nat subtraction `markerPos - 50` is exactly `max 0 (markerPos - 50)`. -/
def contextWindow (content : List Char) (markerPos : Nat) : List Char :=
  flattenNewlines ((content.take (min content.length (markerPos + 150))).drop (markerPos - 50))

/-! ## Classification (`_handle_file_change`, lines 184–224) -/

/-- Outcome of the `open(...).read()` attempt, one constructor per `except`
arm of lines 208–219. -/
inductive ReadOutcome
  | ok (content : List Char)
  | unicodeDecodeError
  | permissionError
  | fileNotFoundError
  | otherError
  deriving DecidableEq

/-- What the filesystem reports about the file named in one event:
its `path.parts`, the `path.stat().st_size` answer (`none` when `stat`
raises `OSError`/`FileNotFoundError`, lines 190–195), and the read outcome. -/
structure FileInfo where
  parts : List String
  statResult : Option Nat
  readResult : ReadOutcome
  deriving DecidableEq

/-- Python `part.startswith('.')`. -/
def startsDot (s : String) : Bool :=
  match s.data with
  | [] => false
  | c :: _ => c = '.'

/-- The fixed ceiling of line 198: `10 * 1024 * 1024` bytes. -/
def sizeLimit : Nat := 10 * 1024 * 1024

/-- The reason a file event is dropped, one per early `return` of
`_handle_file_change`. -/
inductive SkipReason
  | hidden
  | statFailed
  | tooLarge
  | notText
  | noPermission
  | vanished
  | readError
  | noMarker
  deriving DecidableEq

/-- Result of classification: skip, or qualify carrying the decoded content. -/
inductive ClassifyResult
  | skip (r : SkipReason)
  | qualify (content : List Char)
  deriving DecidableEq

/-- Which filesystem operations the classification performed: whether
`path.stat()` was called and whether `open`/`read` was attempted. -/
structure Access where
  statted : Bool
  readAttempted : Bool
  deriving DecidableEq

/-- Lines 184–224 of `_handle_file_change`, in source order: hidden-path
check, `stat` (errors skip), size ceiling, `open`/`read` (each `except` arm
skips), marker test.  Alongside the result it records which filesystem
accesses happened. -/
def classify (f : FileInfo) : ClassifyResult × Access :=
  if f.parts.any startsDot then (.skip .hidden, ⟨false, false⟩)
  else
    match f.statResult with
    | none => (.skip .statFailed, ⟨true, false⟩)
    | some size =>
        if sizeLimit < size then (.skip .tooLarge, ⟨true, false⟩)
        else
          match f.readResult with
          | .unicodeDecodeError => (.skip .notText, ⟨true, true⟩)
          | .permissionError => (.skip .noPermission, ⟨true, true⟩)
          | .fileNotFoundError => (.skip .vanished, ⟨true, true⟩)
          | .otherError => (.skip .readError, ⟨true, true⟩)
          | .ok content =>
              if containsSub marker content then (.qualify content, ⟨true, true⟩)
              else (.skip .noMarker, ⟨true, true⟩)

/-- Outcome in the spec's vocabulary: skip matched at condition `n` of §4.2,
or qualify. -/
inductive SpecOutcome
  | skipCond (n : Nat)
  | qualified
  deriving DecidableEq

/-- The five skip conditions of spec §4.2, evaluated in the spec's listed
order with first match winning (written from the spec's words, to be compared
with `classify`).  Condition 4 — "file unreadable due to permission or having
disappeared since the event fired" — covers a failing `stat` as well as a
failing `open`. -/
def specClassify (f : FileInfo) : SpecOutcome :=
  if f.parts.any startsDot then .skipCond 1
  else if (match f.statResult with | some n => decide (sizeLimit < n) | none => false) then
    .skipCond 2
  else if f.readResult = ReadOutcome.unicodeDecodeError then .skipCond 3
  else if f.readResult = ReadOutcome.permissionError ∨
          f.readResult = ReadOutcome.fileNotFoundError ∨
          f.statResult = none then .skipCond 4
  else if (match f.readResult with
           | .ok c => !containsSub marker c
           | _ => false) then .skipCond 5
  else .qualified

/-- Spec condition number matched by each code-level skip reason (`readError`,
the catch-all `except Exception` arm of line 217, has no spec condition). -/
def condOfReason : SkipReason → Nat
  | .hidden => 1
  | .tooLarge => 2
  | .notText => 3
  | .statFailed => 4
  | .noPermission => 4
  | .vanished => 4
  | .noMarker => 5
  | .readError => 0

/-- Mapping of the code's classification result into the spec's vocabulary. -/
def toSpec : ClassifyResult → SpecOutcome
  | .skip r => .skipCond (condOfReason r)
  | .qualify _ => .qualified

/-! ## Executable resolution and child environment (`_run_claude_async`,
lines 272–320) -/

/-- The fixed fallback list of lines 279–285: candidate locations for the
`claude` executable, tried in this order after `shutil.which` fails. -/
def possiblePaths (home : String) : List String :=
  [home ++ "/.claude/local/claude",
   home ++ "/.local/bin/claude",
   home ++ "/.npm-global/bin/claude",
   "/usr/local/bin/claude",
   "/usr/bin/claude"]

/-- The `for p in possible_paths: if p.exists(): ...; break` loop of
lines 286–289, parametrised by the filesystem's existence oracle. -/
def resolveClaudeLoop (exists? : String → Bool) : List String → Option String
  | [] => none
  | p :: rest => if exists? p then some p else resolveClaudeLoop exists? rest

/-- Lines 275–292: `shutil.which("claude")` (a search of the inherited PATH,
abstracted as `whichResult`), falling back to the fixed candidate list; the
caller raises `FileNotFoundError` when this returns `none`. -/
def resolveClaude (whichResult : Option String) (home : String)
    (exists? : String → Bool) : Option String :=
  match whichResult with
  | some p => some p
  | none => resolveClaudeLoop exists? (possiblePaths home)

/-- Lines 300–305: the directories prepended to the child's PATH
(`extra_paths`). -/
def extraPaths (home : String) : List String :=
  [home ++ "/.claude/local",
   home ++ "/.local/bin",
   home ++ "/.npm-global/bin",
   "/usr/local/bin"]

/-- Python `":".join(xs)`. -/
def joinColon : List String → String
  | [] => ""
  | [x] => x
  | x :: y :: rest => x ++ ":" ++ joinColon (y :: rest)

/-- Line 306: `env["PATH"] = ":".join(extra_paths) + ":" + env.get("PATH", "")`. -/
def childPATH (home : String) (inheritedPATH : Option String) : String :=
  joinColon (extraPaths home) ++ ":" ++ inheritedPATH.getD ""

/-- The parent directories of the five fallback executable locations of
`possiblePaths`, in the same order (each entry of `possiblePaths` is the
corresponding directory here with `"/claude"` appended, proved below). -/
def fallbackDirs (home : String) : List String :=
  [home ++ "/.claude/local",
   home ++ "/.local/bin",
   home ++ "/.npm-global/bin",
   "/usr/local/bin",
   "/usr/bin"]

/-! ## The dispatch state machine -/

/-- The key under which `_handle_file_change` tracks an in-flight run: the
`event.src_path` string, used verbatim (lines 180, 247, 331, 373, 377 all
operate on the unmodified `file_path` / `abs_path` string). -/
def dispatchKey (srcPath : String) : String := srcPath

/-- Mutable handler state: `self.processing`, `self.process_count`, and the
keys whose launched child process is still alive (`activeRuns`). -/
structure WatcherState where
  processing : List String
  processCount : Nat
  activeRuns : List String
  deriving DecidableEq

/-- How the launch attempt inside `_run_claude_async` ends: the executable
resolves and `Popen` succeeds; resolution fails (`FileNotFoundError`, caught
at line 370); or `Popen` itself raises (caught by `except Exception` at
line 374). -/
inductive LaunchOutcome
  | resolved
  | notFound
  | popenRaises
  deriving DecidableEq

/-- One filesystem event together with everything the environment answers
during its handling.  `canonical` is the path the OS would resolve the event
path to (two distinct `path` strings may share it, e.g. two hard links of one
file); the code never consults it. -/
structure EventCtx where
  path : String
  canonical : String
  info : FileInfo
  launch : LaunchOutcome
  deriving DecidableEq

/-- Lines 246–253 and 308–377 once an event qualifies: the key is added to
`self.processing` and the counter incremented; on successful `Popen` a child
is now active; on `FileNotFoundError` or any other launch exception the
`except` arms discard the key again and no child runs. -/
def afterAccept (s : WatcherState) (e : EventCtx) : WatcherState :=
  match e.launch with
  | .resolved =>
      ⟨dispatchKey e.path :: s.processing, s.processCount + 1,
       dispatchKey e.path :: s.activeRuns⟩
  | .notFound =>
      ⟨(dispatchKey e.path :: s.processing).erase (dispatchKey e.path),
       s.processCount + 1, s.activeRuns⟩
  | .popenRaises =>
      ⟨(dispatchKey e.path :: s.processing).erase (dispatchKey e.path),
       s.processCount + 1, s.activeRuns⟩

/-- One full run of `_handle_file_change` (lines 175–253), which the watchdog
observer executes atomically on its single event-dispatch thread: the
in-flight check of line 180 first, then classification, then accept-and-launch.
Returns the new state together with the filesystem accesses performed. -/
def handleFileChange (s : WatcherState) (e : EventCtx) : WatcherState × Access :=
  if dispatchKey e.path ∈ s.processing then (s, ⟨false, false⟩)
  else
    match classify e.info with
    | (.skip _, a) => (s, a)
    | (.qualify _, a) => (afterAccept s e, a)

/-- The end of one run, i.e. the `cleanup` thread of lines 325–364 observing
the child's exit.  When `process.communicate()` returns normally the key is
discarded (line 331); when it raises — the body has no `try`/`finally` — the
thread dies before reaching the `discard`, so only the child's death itself
is recorded. -/
def finishRun (s : WatcherState) (p : String) (communicateRaises : Bool) : WatcherState :=
  if communicateRaises then
    ⟨s.processing, s.processCount, s.activeRuns.erase (dispatchKey p)⟩
  else
    ⟨s.processing.erase (dispatchKey p), s.processCount,
     s.activeRuns.erase (dispatchKey p)⟩

/-- Interleaving semantics: handler runs are serialized on the observer's
event thread and each is one step; each completion thread contributes one
step when its child exits (a `finish` step needs a live child). -/
inductive Step : WatcherState → WatcherState → Prop
  | event (s : WatcherState) (e : EventCtx) : Step s (handleFileChange s e).1
  | finish (s : WatcherState) (p : String) (b : Bool) (h : dispatchKey p ∈ s.activeRuns) :
      Step s (finishRun s p b)

/-- States reachable from the initial state (`self.processing = set()`,
`self.process_count = 0`, no children). -/
inductive Reachable : WatcherState → Prop
  | init : Reachable ⟨[], 0, []⟩
  | step {s t : WatcherState} : Reachable s → Step s t → Reachable t

/-- The concurrency invariant: no key ever has two live children, and every
live child's key is still in `self.processing`. -/
def Inv (s : WatcherState) : Prop :=
  (∀ k, s.activeRuns.count k ≤ 1) ∧ (∀ k, k ∈ s.activeRuns → k ∈ s.processing)

/-! ## Concrete sample data used by witnesses and counterexamples -/

/-- A qualifying file: non-hidden, 20 bytes, readable, marker present. -/
def sampleInfo : FileInfo :=
  { parts := ["/", "w", "a.txt"], statResult := some 20,
    readResult := .ok "hello claude! echo hi".data }

/-- A qualifying event whose launch succeeds. -/
def sampleEvent : EventCtx :=
  { path := "/w/a.txt", canonical := "/w/a.txt", info := sampleInfo,
    launch := .resolved }

/-- The state after `sampleEvent` is accepted from the initial state: one
in-flight key, one live child. -/
def runState : WatcherState := (handleFileChange ⟨[], 0, []⟩ sampleEvent).1

/-- A state in which `"/w/b.txt"` already has an active run. -/
def busyState : WatcherState := ⟨["/w/b.txt"], 5, ["/w/b.txt"]⟩

/-- A qualifying event for the busy file. -/
def busyEvent : EventCtx :=
  { path := "/w/b.txt", canonical := "/w/b.txt", info := sampleInfo,
    launch := .resolved }

/-- A qualifying event whose executable resolution fails. -/
def notFoundEvent : EventCtx :=
  { path := "/w/c.txt", canonical := "/w/c.txt", info := sampleInfo,
    launch := .notFound }

/-- An event reaching a file through a hard link: its raw path differs from
the canonical path of the file it denotes. -/
def aliasEventA : EventCtx :=
  { path := "/w/link.txt", canonical := "/w/real.txt", info := sampleInfo,
    launch := .resolved }

/-- An event for the same file as `aliasEventA`, through its canonical name. -/
def aliasEventB : EventCtx :=
  { path := "/w/real.txt", canonical := "/w/real.txt", info := sampleInfo,
    launch := .resolved }

/-- Content with the first marker occurrence at offset 60 and 160 characters
after it, so neither clamp of the context window bites. -/
def cwContent : List Char :=
  List.replicate 60 'a' ++ marker ++ List.replicate 160 'b'

/-- An oversized readable file (permission immaterial: never read). -/
def oversizeInfo : FileInfo :=
  { parts := ["/", "w", "big.bin"], statResult := some (20 * 1024 * 1024),
    readResult := .permissionError }

lemma inv_afterAccept {s : WatcherState} {e : EventCtx}
    (hmem : dispatchKey e.path ∉ s.processing) (hInv : Inv s) :
    Inv (afterAccept s e) := by
  obtain ⟨hcount, hsub⟩ := hInv
  cases hl : e.launch with
  | resolved =>
      constructor
      · intro k
        by_cases hk : k = dispatchKey e.path
        · have hnot : dispatchKey e.path ∉ s.activeRuns := fun h => hmem (hsub _ h)
          rw [hk]
          simp [afterAccept, hl, List.count_cons_self,
            List.count_eq_zero.mpr hnot]
        · simpa [afterAccept, hl, List.count_cons_of_ne hk] using hcount k
      · intro k hk
        simp only [afterAccept, hl, List.mem_cons] at hk ⊢
        rcases hk with hk | hk
        · exact Or.inl hk
        · exact Or.inr (hsub k hk)
  | notFound =>
      simpa [afterAccept, hl, Inv, List.erase_cons_head] using ⟨hcount, hsub⟩
  | popenRaises =>
      simpa [afterAccept, hl, Inv, List.erase_cons_head] using ⟨hcount, hsub⟩

lemma inv_handleFileChange {s : WatcherState} (e : EventCtx) (hInv : Inv s) :
    Inv (handleFileChange s e).1 := by
  unfold handleFileChange
  by_cases hmem : dispatchKey e.path ∈ s.processing
  · simpa [hmem] using hInv
  · rcases hc : classify e.info with ⟨res, a⟩
    cases res with
    | skip r => simpa [hmem, hc] using hInv
    | qualify c => simpa [hmem, hc] using inv_afterAccept hmem hInv

lemma inv_finishRun {s : WatcherState} (p : String) (b : Bool) (hInv : Inv s) :
    Inv (finishRun s p b) := by
  obtain ⟨hcount, hsub⟩ := hInv
  have herase : ∀ k, (s.activeRuns.erase (dispatchKey p)).count k ≤ 1 := fun k =>
    le_trans ((s.activeRuns.erase_sublist (dispatchKey p)).count_le k) (hcount k)
  cases b with
  | true =>
      refine ⟨by simpa [finishRun] using herase, ?_⟩
      intro k hk
      simp only [finishRun] at hk ⊢
      exact hsub k (List.mem_of_mem_erase hk)
  | false =>
      refine ⟨by simpa [finishRun] using herase, ?_⟩
      intro k hk
      simp only [finishRun] at hk ⊢
      by_cases hkp : k = dispatchKey p
      · subst hkp
        have hpos : 0 < (s.activeRuns.erase k).count k :=
          List.count_pos_iff.mpr hk
        have hself : (s.activeRuns.erase k).count k = s.activeRuns.count k - 1 :=
          List.count_erase_self k s.activeRuns
        have h1 := hcount k
        exact absurd hpos (by omega)
      · exact (List.mem_erase_of_ne hkp).mpr (hsub k (List.mem_of_mem_erase hk))

/-- Every reachable state satisfies the concurrency invariant. -/
lemma reachable_inv {s : WatcherState} (h : Reachable s) : Inv s := by
  induction h with
  | init => exact ⟨fun k => by simp, fun k hk => by simp at hk⟩
  | step _ hstep ih =>
      cases hstep with
      | event e => exact inv_handleFileChange e ih
      | finish p b hb => exact inv_finishRun p b ih

/-! ## Helper lemmas about the marker search and the context window -/

/-- `findSub` really returns an occurrence: the needle starts at the
returned index. -/
lemma findSub_occurs (needle : List Char) :
    ∀ (l : List Char) (p : Nat), findSub needle l = some p →
      leadsWith needle (l.drop p) = true := by
  intro l
  induction l with
  | nil =>
      intro p hp
      simp only [findSub] at hp
      split at hp
      · rename_i hlw
        cases hp
        simpa using hlw
      · cases hp
  | cons c rest ih =>
      intro p hp
      simp only [findSub] at hp
      split at hp
      · rename_i hlw
        cases hp
        simpa using hlw
      · rcases hfind : findSub needle rest with _ | p'
        · rw [hfind] at hp; cases hp
        · rw [hfind] at hp
          simp only [Option.map_some'] at hp
          cases hp
          simpa using ih p' hfind

/-- `findSub` returns the FIRST occurrence: there is none at any smaller
index. -/
lemma findSub_least (needle : List Char) :
    ∀ (l : List Char) (p : Nat), findSub needle l = some p →
      ∀ q, q < p → leadsWith needle (l.drop q) = false := by
  intro l
  induction l with
  | nil =>
      intro p hp q hq
      simp only [findSub] at hp
      split at hp
      · cases hp; omega
      · cases hp
  | cons c rest ih =>
      intro p hp q hq
      simp only [findSub] at hp
      split at hp
      · cases hp; omega
      · rename_i hlw
        rcases hfind : findSub needle rest with _ | p'
        · rw [hfind] at hp; cases hp
        · rw [hfind] at hp
          simp only [Option.map_some'] at hp
          cases hp
          cases q with
          | zero => simpa using hlw
          | succ q' => simpa using ih p' hfind q' (by omega)

/-- Flattening leaves no newline character behind. -/
lemma flattenNewlines_no_newline : ∀ l : List Char, '\n' ∉ flattenNewlines l := by
  intro l
  induction l with
  | nil => simp [flattenNewlines]
  | cons c rest ih =>
      simp only [flattenNewlines]
      by_cases hc : c = '\n'
      · rw [if_pos hc]
        intro hmem
        rcases List.mem_cons.mp hmem with h | hmem2
        · exact absurd h (by decide)
        rcases List.mem_cons.mp hmem2 with h | hmem3
        · exact absurd h (by decide)
        · exact ih hmem3
      · rw [if_neg hc]
        intro hmem
        rcases List.mem_cons.mp hmem with h | hmem2
        · exact hc h.symm
        · exact ih hmem2

/-- The `for p in possible_paths` loop is first-match search. -/
lemma resolveClaudeLoop_eq_find (exists? : String → Bool) :
    ∀ l : List String, resolveClaudeLoop exists? l = l.find? exists? := by
  intro l
  induction l with
  | nil => rfl
  | cons p rest ih =>
      by_cases hp : exists? p
      · simp [resolveClaudeLoop, hp, List.find?]
      · simp [resolveClaudeLoop, hp, List.find?, ih]

/-- `runState` is reachable: initial state, then one accepted event. -/
lemma runState_reachable : Reachable runState :=
  Reachable.step Reachable.init (Step.event ⟨[], 0, []⟩ sampleEvent)

/-! ## The claims -/

/-- Claim C1: for every DispatchKey at most one run is active at all times —
in every reachable state no key occurs twice among the live children — and an
event arriving for a key with a live child is rejected unchanged, with no
second child launched, however many such events arrive. -/
theorem guard_at_most_one_active_run (s : WatcherState) (h : Reachable s) :
    (∀ k, s.activeRuns.count k ≤ 1) ∧
    (∀ e : EventCtx, dispatchKey e.path ∈ s.activeRuns →
      handleFileChange s e = (s, ⟨false, false⟩)) := by
  have hInv := reachable_inv h
  refine ⟨hInv.1, ?_⟩
  intro e he
  have hmem : dispatchKey e.path ∈ s.processing := hInv.2 _ he
  simp [handleFileChange, hmem]

theorem guard_at_most_one_active_run_witness :
    runState.activeRuns.count "/w/a.txt" ≤ 1 ∧
    handleFileChange runState sampleEvent = (runState, ⟨false, false⟩) := by
  have h := guard_at_most_one_active_run runState runState_reachable
  exact ⟨h.1 "/w/a.txt", h.2 sampleEvent (by decide)⟩

/-- Claim C2 (code bug): the spec demands the key be released on every end of
a run, including an exception raised while waiting.  The launch-failure arms
do release it, but `cleanup` (lines 325–364) has no `try`/`finally`: when
`process.communicate()` raises — e.g. a `UnicodeDecodeError`, since the pipes
are text-mode with strict decoding — the thread dies before the `discard` of
line 331.  Concretely: from the reachable state `runState` (one live child
for `/w/a.txt`), a finish in which `communicate` raises leaves the key in the
set with no child alive, and every later event for that file is rejected
forever; the normal finish does release it. -/
theorem reaper_exception_leaks_key :
    "/w/a.txt" ∈ runState.activeRuns ∧
    (finishRun runState "/w/a.txt" true).processing = ["/w/a.txt"] ∧
    "/w/a.txt" ∉ (finishRun runState "/w/a.txt" true).activeRuns ∧
    (handleFileChange (finishRun runState "/w/a.txt" true) sampleEvent).1
      = finishRun runState "/w/a.txt" true ∧
    (finishRun runState "/w/a.txt" false).processing = [] ∧
    (finishRun runState "/w/a.txt" false).activeRuns = [] := by
  decide

/-- Claim C10: while a file's key is in the InFlightSet, an event for that
path performs no stat and no read, and returns the state — InFlightSet and
run counter — exactly unchanged, whatever the filesystem would have answered
and however the launch would have gone. -/
theorem inflight_event_is_noop (s : WatcherState) (e : EventCtx)
    (h : dispatchKey e.path ∈ s.processing) :
    handleFileChange s e = (s, ⟨false, false⟩) := by
  simp [handleFileChange, h]

theorem inflight_event_is_noop_witness :
    handleFileChange busyState busyEvent = (busyState, ⟨false, false⟩) :=
  inflight_event_is_noop busyState busyEvent (by decide)

/-- Claim C3: the five skip conditions are evaluated in the spec's order with
first match winning.  `classify` (the code, which happens to detect a
vanished/unreadable file already at the `stat` call) classifies every file
exactly as the literally spec-ordered `specClassify` does, provided the
filesystem answers coherently (a file whose `stat` failed cannot also have
delivered undecodable content) and the read outcome is one of the spec's
taxonomy (the catch-all `except Exception` arm is outside the five
conditions).  Moreover an earlier match suppresses the later probes: a hidden
file is never statted nor read, an oversized one never read. -/
theorem skip_conditions_order (f : FileInfo)
    (hcoh : f.statResult = none → f.readResult ≠ ReadOutcome.unicodeDecodeError)
    (hother : f.readResult ≠ ReadOutcome.otherError) :
    toSpec (classify f).1 = specClassify f ∧
    (f.parts.any startsDot = true → (classify f).2 = ⟨false, false⟩) ∧
    (∀ n, f.parts.any startsDot = false → f.statResult = some n → sizeLimit < n →
      (classify f).2 = ⟨true, false⟩) := by
  obtain ⟨parts, st, rr⟩ := f
  cases hp : parts.any startsDot with
  | true =>
      refine ⟨by simp [classify, specClassify, toSpec, condOfReason, hp],
        fun _ => by simp [classify, hp], by simp [hp]⟩
  | false =>
      cases st with
      | none =>
          have hrr : rr ≠ ReadOutcome.unicodeDecodeError := hcoh rfl
          refine ⟨?_, by simp [hp], by simp⟩
          cases rr with
          | ok c => simp [classify, specClassify, toSpec, condOfReason, hp]
          | unicodeDecodeError => exact absurd rfl hrr
          | permissionError =>
              simp [classify, specClassify, toSpec, condOfReason, hp]
          | fileNotFoundError =>
              simp [classify, specClassify, toSpec, condOfReason, hp]
          | otherError => exact absurd rfl hother
      | some size =>
          by_cases hsz : sizeLimit < size
          · refine ⟨by simp [classify, specClassify, toSpec, condOfReason, hp, hsz],
              by simp [hp], ?_⟩
            intro n hpf hn hlt
            cases hn
            simp [classify, hp, hsz]
          · refine ⟨?_, by simp [hp], ?_⟩
            · cases rr with
              | ok c =>
                  by_cases hm : containsSub marker c <;>
                    simp [classify, specClassify, toSpec, condOfReason, hp, hsz, hm]
              | unicodeDecodeError =>
                  simp [classify, specClassify, toSpec, condOfReason, hp, hsz]
              | permissionError =>
                  simp [classify, specClassify, toSpec, condOfReason, hp, hsz]
              | fileNotFoundError =>
                  simp [classify, specClassify, toSpec, condOfReason, hp, hsz]
              | otherError => exact absurd rfl hother
            · intro n hpf hn hlt
              cases hn
              exact absurd hlt hsz

theorem skip_conditions_order_witness :
    toSpec (classify oversizeInfo).1 = specClassify oversizeInfo ∧
    (classify oversizeInfo).2 = ⟨true, false⟩ := by
  have h := skip_conditions_order oversizeInfo (by intro hc; cases hc) (by decide)
  exact ⟨h.1, h.2.2 (20 * 1024 * 1024) (by decide) rfl (by decide)⟩

/-- Claim C4: the executable is resolved from the inherited PATH first
(`shutil.which`'s answer wins whenever it exists), then by first match over
the fixed candidate list in its listed order; and when resolution fails the
handler ends with the guard key released and no run recorded, whatever the
prior state. -/
theorem executable_resolution_order_and_release (home : String)
    (exists? : String → Bool) :
    (∀ p, resolveClaude (some p) home exists? = some p) ∧
    resolveClaude none home exists? = (possiblePaths home).find? exists? ∧
    (∀ (s : WatcherState) (e : EventCtx), e.launch = LaunchOutcome.notFound →
      (handleFileChange s e).1.processing = s.processing ∧
      (handleFileChange s e).1.activeRuns = s.activeRuns) := by
  refine ⟨fun p => rfl, resolveClaudeLoop_eq_find exists? (possiblePaths home), ?_⟩
  intro s e hl
  by_cases hmem : dispatchKey e.path ∈ s.processing
  · simp [handleFileChange, hmem]
  · rcases hc : classify e.info with ⟨res, a⟩
    cases res with
    | skip r => simp [handleFileChange, hmem, hc]
    | qualify c =>
        simp [handleFileChange, hmem, hc, afterAccept, hl, List.erase_cons_head]

theorem executable_resolution_order_and_release_witness :
    resolveClaude none "/h" (fun p => p == "/usr/bin/claude")
      = some "/usr/bin/claude" ∧
    (handleFileChange ⟨[], 0, []⟩ notFoundEvent).1.processing = [] ∧
    (handleFileChange ⟨[], 0, []⟩ notFoundEvent).1.activeRuns = [] := by
  have h := executable_resolution_order_and_release "/h"
    (fun p => p == "/usr/bin/claude")
  refine ⟨?_, (h.2.2 ⟨[], 0, []⟩ notFoundEvent rfl).1,
    (h.2.2 ⟨[], 0, []⟩ notFoundEvent rfl).2⟩
  rw [h.2.1]
  decide

/-- Claim C9: a file whose reported size strictly exceeds the 10 MiB ceiling
is skipped with its content never opened — the decision uses the `stat`
metadata alone — and a file of exactly the ceiling size is never skipped for
size. -/
theorem oversize_never_read (f : FileInfo) (n : Nat)
    (hstat : f.statResult = some n) (hsz : sizeLimit < n) :
    (∃ r, (classify f).1 = ClassifyResult.skip r) ∧
    (classify f).2.readAttempted = false ∧
    (f.parts.any startsDot = false →
      (classify f).1 = ClassifyResult.skip SkipReason.tooLarge ∧
      (classify f).2.statted = true) ∧
    (∀ g : FileInfo, g.statResult = some sizeLimit →
      (classify g).1 ≠ ClassifyResult.skip SkipReason.tooLarge) := by
  refine ⟨?_, ?_, ?_, ?_⟩
  · by_cases hp : f.parts.any startsDot
    · exact ⟨.hidden, by simp [classify, hp]⟩
    · exact ⟨.tooLarge, by simp [classify, hp, hstat, hsz]⟩
  · by_cases hp : f.parts.any startsDot
    · simp [classify, hp]
    · simp [classify, hp, hstat, hsz]
  · intro hp
    constructor <;> simp [classify, hp, hstat, hsz]
  · intro g hg
    by_cases hp : g.parts.any startsDot
    · simp [classify, hp]
    · cases hrr : g.readResult with
      | ok c =>
          by_cases hm : containsSub marker c <;>
            simp [classify, hp, hg, hrr, hm]
      | unicodeDecodeError => simp [classify, hp, hg, hrr]
      | permissionError => simp [classify, hp, hg, hrr]
      | fileNotFoundError => simp [classify, hp, hg, hrr]
      | otherError => simp [classify, hp, hg, hrr]

theorem oversize_never_read_witness :
    (∃ r, (classify oversizeInfo).1 = ClassifyResult.skip r) ∧
    (classify oversizeInfo).2.readAttempted = false := by
  have h := oversize_never_read oversizeInfo (20 * 1024 * 1024) rfl (by decide)
  exact ⟨h.1, h.2.1⟩

/-- Claim C5: the context window for a content whose first marker occurrence
is at offset `p` is the slice from 50 characters before `p` to 150 characters
after `p`, both clamped to the content's bounds, with newlines flattened into
a single line.  The slice is a contiguous piece of the content; when neither
clamp bites it is exactly 200 characters long before flattening; the window
contains no newline; and `p` really is the first occurrence. -/
theorem context_window_shape (content : List Char) (p : Nat)
    (hfind : findSub marker content = some p) :
    contextWindow content p
      = flattenNewlines
          ((content.take (min content.length (p + 150))).drop (p - 50)) ∧
    (∃ u v,
      u ++ ((content.take (min content.length (p + 150))).drop (p - 50)) ++ v
        = content) ∧
    (50 ≤ p → p + 150 ≤ content.length →
      ((content.take (min content.length (p + 150))).drop (p - 50)).length = 200) ∧
    '\n' ∉ contextWindow content p ∧
    leadsWith marker (content.drop p) = true ∧
    (∀ q, q < p → leadsWith marker (content.drop q) = false) := by
  refine ⟨rfl, ?_, ?_, flattenNewlines_no_newline _,
    findSub_occurs marker content p hfind, findSub_least marker content p hfind⟩
  · refine ⟨(content.take (min content.length (p + 150))).take (p - 50),
      content.drop (min content.length (p + 150)), ?_⟩
    rw [List.take_append_drop, List.take_append_drop]
  · intro h50 h150
    rw [List.length_drop, List.length_take]
    omega

set_option maxRecDepth 8000 in
theorem context_window_shape_witness :
    ((cwContent.take (min cwContent.length (60 + 150))).drop (60 - 50)).length
      = 200 ∧
    '\n' ∉ contextWindow cwContent 60 := by
  have h := context_window_shape cwContent 60 (by decide)
  exact ⟨h.2.2.1 (by decide) (by decide), h.2.2.2.1⟩

/-- Counterexample to claim C6: the handler keys the InFlightSet on the raw
`event.src_path` string — `dispatchKey` is the identity, nothing in
`_handle_file_change` canonicalizes the per-file path — so two events that
denote the same file through different names (equal canonical paths, distinct
raw paths: e.g. a hard link and its target) get different keys, are both
accepted, and two children run concurrently for one file, contradicting
"any two events denoting the same file necessarily map to the same key". -/
theorem dispatch_key_not_canonical_cex :
    aliasEventA.canonical = aliasEventB.canonical ∧
    aliasEventA.path ≠ aliasEventB.path ∧
    dispatchKey aliasEventA.path ≠ dispatchKey aliasEventB.path ∧
    ((handleFileChange (handleFileChange ⟨[], 0, []⟩ aliasEventA).1
        aliasEventB).1).activeRuns = ["/w/real.txt", "/w/link.txt"] := by
  decide

/-- Claim C6 (amended): the uniqueness key is the raw event-supplied path
string used verbatim — `dispatchKey` is the identity — and the membership
test, the insertion-site result, and both removal sites all operate on that
same string, so two events carrying the identical path string map to the same
key (but aliases of one file do not). -/
theorem dispatch_key_raw_and_consistent :
    (∀ p : String, dispatchKey p = p) ∧
    (∀ (s : WatcherState) (e : EventCtx), dispatchKey e.path ∈ s.processing →
      handleFileChange s e = (s, ⟨false, false⟩)) ∧
    (∀ (s : WatcherState) (p : String) (b : Bool),
      (finishRun s p b).activeRuns = s.activeRuns.erase (dispatchKey p)) ∧
    (∀ (s : WatcherState) (p : String),
      (finishRun s p false).processing = s.processing.erase (dispatchKey p)) := by
  refine ⟨fun p => rfl, fun s e h => by simp [handleFileChange, h], ?_,
    fun s p => rfl⟩
  intro s p b
  cases b <;> rfl

theorem dispatch_key_raw_and_consistent_witness :
    dispatchKey "/w/link.txt" = "/w/link.txt" ∧
    handleFileChange ⟨["/w/link.txt"], 1, ["/w/link.txt"]⟩ aliasEventA
      = (⟨["/w/link.txt"], 1, ["/w/link.txt"]⟩, ⟨false, false⟩) ∧
    (finishRun ⟨["/w/link.txt"], 1, ["/w/link.txt"]⟩ "/w/link.txt" false).processing
      = [] := by
  have h := dispatch_key_raw_and_consistent
  refine ⟨h.1 "/w/link.txt", h.2.1 _ aliasEventA (by decide), ?_⟩
  rw [h.2.2.2]
  decide

/-- Counterexample to claim C7: the resolution fallback list has five
conventional install locations (`fallbackDirs`; appending `"/claude"` to each
gives exactly `possiblePaths`, first conjunct), but the child PATH prefixes
only four of them: `/usr/bin` is in the fallback list yet absent from
`extra_paths`, so the prefixed list is not "the same" list. -/
theorem child_path_not_same_locations_cex :
    (fallbackDirs "/h").map (fun d => d ++ "/claude") = possiblePaths "/h" ∧
    childPATH "/h" (some "/usr/bin:/bin")
      ≠ joinColon (fallbackDirs "/h") ++ ":" ++ "/usr/bin:/bin" ∧
    "/usr/bin" ∈ fallbackDirs "/h" ∧
    "/usr/bin" ∉ extraPaths "/h" := by
  decide

/-- Claim C7 (amended): the child's PATH is formed by prefixing, in order,
the first four of the conventional install locations of the fallback list
(all but `/usr/bin`) before the inherited PATH value. -/
theorem child_path_prefixes_first_four (home inherited : String) :
    childPATH home (some inherited)
      = joinColon ((fallbackDirs home).take 4) ++ ":" ++ inherited ∧
    (fallbackDirs home).map (fun d => d ++ "/claude") = possiblePaths home := by
  constructor
  · rfl
  · simp only [fallbackDirs, possiblePaths, List.map_cons, List.map_nil,
      String.append_assoc]
    rfl

/-- Counterexample to claim C8: its biconditional omits the in-flight guard.
At a state whose InFlightSet already holds the file's key, an event meeting
every condition the claim lists (non-hidden, size within the ceiling,
readable text, marker present) still launches nothing: the run counter does
not move. -/
theorem marker_launch_iff_cex :
    ¬ (∀ (s : WatcherState) (e : EventCtx) (c : List Char) (n : Nat),
        e.info.parts.any startsDot = false →
        e.info.statResult = some n → n ≤ sizeLimit →
        e.info.readResult = ReadOutcome.ok c →
        (((handleFileChange s e).1.processCount = s.processCount + 1) ↔
          containsSub marker c = true)) := by
  intro h
  have h2 := h busyState busyEvent "hello claude! echo hi".data 20
    (by decide) (by decide) (by decide) (by decide)
  have h3 : (handleFileChange busyState busyEvent).1.processCount
      = busyState.processCount + 1 := h2.mpr (by decide)
  exact absurd h3 (by decide)

/-- Claim C8 (amended): for a file with no currently active run, that is
non-hidden, size-conforming and readable as text, a launch is attempted
(the run counter advances) if and only if the content contains the exact
case-sensitive substring `claude!`; the differently-cased `Claude!` does not
qualify while the exact token does. -/
theorem marker_launch_iff (s : WatcherState) (e : EventCtx) (c : List Char)
    (n : Nat)
    (hguard : dispatchKey e.path ∉ s.processing)
    (hhid : e.info.parts.any startsDot = false)
    (hstat : e.info.statResult = some n)
    (hsz : n ≤ sizeLimit)
    (hread : e.info.readResult = ReadOutcome.ok c) :
    (((handleFileChange s e).1.processCount = s.processCount + 1) ↔
      containsSub marker c = true) ∧
    containsSub marker "Claude!".data = false ∧
    containsSub marker "some claude! anywhere".data = true := by
  refine ⟨?_, by decide, by decide⟩
  have hnlt : ¬ sizeLimit < n := Nat.not_lt.mpr hsz
  by_cases hm : containsSub marker c
  · have hcl : classify e.info = (.qualify c, ⟨true, true⟩) := by
      simp [classify, hhid, hstat, hread, hnlt, hm]
    rw [handleFileChange, if_neg hguard, hcl]
    cases hl : e.launch <;> simp [afterAccept, hl, hm]
  · have hcl : classify e.info = (.skip .noMarker, ⟨true, true⟩) := by
      simp [classify, hhid, hstat, hread, hnlt, hm]
    rw [handleFileChange, if_neg hguard, hcl]
    simp only [hm]
    constructor
    · intro hcnt
      exact absurd hcnt (by omega)
    · intro hfalse
      cases hfalse

theorem marker_launch_iff_witness :
    ((handleFileChange ⟨[], 0, []⟩ sampleEvent).1.processCount = 0 + 1) ↔
      containsSub marker "hello claude! echo hi".data = true := by
  have h := marker_launch_iff ⟨[], 0, []⟩ sampleEvent
    "hello claude! echo hi".data 20 (by decide) (by decide) (by decide)
    (by decide) (by decide)
  exact h.1

end FileWatcher
